import Mathlib

/-!
Verification development for the gist-fetching client in `github/util.py`.

The Python module builds GraphQL query payload strings, posts them to a fixed
endpoint, and unwraps the decoded JSON responses.  We embed the pure parts of
the module shallowly:

* decoded JSON responses become the inductive `Json`;
* `query_graphql`'s assert on `res.get('data', False)` becomes a function into
  `PyResult` (the assertion message, which carries a repr of the response, is
  abstracted to the `assertionError` constructor);
* `datetime.strptime(_, DATE_FORMAT)` becomes `strptime_date_format`, a strict
  parser of the zero-padded `YYYY-MM-DDTHH:MM:SSZ` shape with Python's
  calendar-range validation;
* the network is replaced by a stub `Server`: a totalCount (answering the
  count-only query of `get_number_of_gists`) and the sequence of pages the
  paginated query serves, in the order cursor-chaining would produce them.
  `get_all_gists`'s while-loop consumes that sequence one page per iteration
  and also records the `(cursor, size)` argument pair of every `get_gists`
  call it issues.
-/

/-- Decoded JSON value, as produced by `requests.Response.json()`.
Objects are association lists of fields in document order. -/
inductive Json where
  | null
  | bool (b : Bool)
  | num (n : Int)
  | str (s : String)
  | arr (xs : List Json)
  | obj (fields : List (String × Json))

/-- Lookup of a key in a decoded JSON object's field list (Python `dict`
indexing / `dict.get`); `none` models a `KeyError` / default branch. -/
def dictGet : List (String × Json) → String → Option Json
  | [], _ => none
  | (k, v) :: rest, key => if k = key then some v else dictGet rest key

/-- Python truthiness of a decoded JSON value (`bool(x)`): `None`, `False`,
zero, and empty strings/lists/dicts are falsy. -/
def Json.truthy : Json → Bool
  | .null => false
  | .bool b => b
  | .num n => n != 0
  | .str s => s != ""
  | .arr xs => !xs.isEmpty
  | .obj fs => !fs.isEmpty

/-- Subscript access `value[key]` on a decoded JSON value: succeeds only on an
object that has the key (anything else raises in Python, modelled by `none`). -/
def Json.getKey : Json → String → Option Json
  | .obj fs, key => dictGet fs key
  | _, _ => none

/-- Result of a Python call that can stop with an `AssertionError`
(`util.py` line 47).  The assertion message is not modelled. -/
inductive PyResult (α : Type) where
  | ok (val : α)
  | assertionError
  deriving Repr, DecidableEq

/-- Model of `query_graphql` (lines 27-48) applied to the decoded response
dict: `assert res.get('data', False)` raises unless the `data` field is
present and truthy; otherwise the full decoded response is returned
unmodified.  The HTTP transport and JSON decoding are outside the model. -/
def query_graphql (res : List (String × Json)) : PyResult (List (String × Json)) :=
  if ((dictGet res "data").getD (Json.bool false)).truthy then .ok res
  else .assertionError

/-- The list comprehension `[e['node'] for e in gists['edges']]` (line 106):
extracts each edge's `node`, failing if any edge lacks one. -/
def extract_nodes : List Json → Option (List Json)
  | [] => some []
  | e :: rest =>
    match e.getKey "node" with
    | none => none
    | some n =>
      match extract_nodes rest with
      | none => none
      | some ns => some (n :: ns)

/-- Unwrapping of the gist-listing response in `get_gists` (lines 102-106):
`res['data']['viewer']['gists']` then `totalCount`, `pageInfo.endCursor`,
`pageInfo.hasNextPage`, and the list of edge nodes.  `none` models a raised
`KeyError`/`TypeError`. -/
def get_gists_unwrap (res : List (String × Json)) :
    Option (List Json × Json × Json × Json) :=
  match (Json.obj res).getKey "data" with
  | none => none
  | some dat =>
    match dat.getKey "viewer" with
    | none => none
    | some viewer =>
      match viewer.getKey "gists" with
      | none => none
      | some gists0 =>
        match gists0.getKey "totalCount" with
        | none => none
        | some total =>
          match gists0.getKey "pageInfo" with
          | none => none
          | some page_info =>
            match page_info.getKey "endCursor" with
            | none => none
            | some end_cursor =>
              match page_info.getKey "hasNextPage" with
              | none => none
              | some has_next_page =>
                match gists0.getKey "edges" with
                | none => none
                | some edges =>
                  match edges with
                  | .arr es =>
                    match extract_nodes es with
                    | none => none
                    | some nodes => some (nodes, total, end_cursor, has_next_page)
                  | _ => none

/-- Response side of `get_gists` (lines 98-108): run the decoded response
through `query_graphql`, then unwrap it into the 4-tuple
`(gists, total, end_cursor, has_next_page)`. -/
def get_gists (res : List (String × Json)) :
    PyResult (Option (List Json × Json × Json × Json)) :=
  match query_graphql res with
  | .assertionError => .assertionError
  | .ok r => .ok (get_gists_unwrap r)

/-- Builds a decoded response of exactly the documented contract shape
`data.viewer.gists` with `totalCount`, `edges:[(node, cursor)]` and
`pageInfo:(endCursor, hasNextPage)`. -/
def mkGistsResponse (total : Json) (edges : List (Json × Json))
    (end_cursor has_next_page : Json) : List (String × Json) :=
  [("data", Json.obj [("viewer", Json.obj [("gists", Json.obj
    [ ("totalCount", total),
      ("edges", Json.arr (edges.map fun e =>
        Json.obj [("node", e.1), ("cursor", e.2)])),
      ("pageInfo", Json.obj
        [("endCursor", end_cursor), ("hasNextPage", has_next_page)]) ])])])]

/-- First-page query template of `get_gists` (line 90), with the page size
substituted for `%d`.  It carries no `after` clause. -/
def first_payload (size : Nat) : String :=
  "\x7b\"query\":\"query \x7bviewer \x7bgists(first:" ++ toString size ++
  ", privacy:ALL, orderBy: \x7bfield: UPDATED_AT, direction: DESC\x7d) \x7btotalCount edges \x7b node \x7b id description name pushedAt \x7d cursor \x7d pageInfo \x7b endCursor hasNextPage \x7d \x7d \x7d \x7d\"\x7d"

/-- Subsequent-page query template of `get_gists` (line 91), with the page
size and the cursor substituted for `%d` and `%s`. -/
def payload_template (size : Nat) (cursor : String) : String :=
  "\x7b\"query\":\"query \x7bviewer \x7bgists(first:" ++ toString size ++
  ", privacy:ALL, orderBy: \x7bfield: UPDATED_AT, direction: DESC\x7d, after:\\\"" ++
  cursor ++
  "\\\") \x7btotalCount edges \x7b node \x7b id description name pushedAt \x7d cursor \x7d pageInfo \x7b endCursor hasNextPage \x7d \x7d \x7d \x7d\"\x7d"

/-- Request side of `get_gists` (lines 93-96): `if not cursor` selects the
first-page template for a `None` or empty-string cursor, and the
subsequent-page template otherwise. -/
def get_gists_payload (cursor : Option String) (size : Nat) : String :=
  match cursor with
  | none => first_payload size
  | some c => if c = "" then first_payload size else payload_template size c

/-- Default value of the `size` parameter of `get_gists` (line 51). -/
def get_gists_default_size : Nat := 100

/-- Numeric value of a decimal digit character, `none` otherwise. -/
def digitVal (c : Char) : Option Nat :=
  if c.isDigit then some (c.toNat - 48) else none

/-- Two decimal digits read as a number. -/
def read2 (a b : Char) : Option Nat :=
  match digitVal a, digitVal b with
  | some x, some y => some (x * 10 + y)
  | _, _ => none

/-- Four decimal digits read as a number. -/
def read4 (a b c d : Char) : Option Nat :=
  match read2 a b, read2 c d with
  | some x, some y => some (x * 100 + y)
  | _, _ => none

/-- Gregorian leap-year rule, as used by Python's `datetime`. -/
def isLeapYear (y : Nat) : Bool :=
  (y % 4 == 0 && y % 100 != 0) || y % 400 == 0

/-- Number of days in a month, as validated by Python's `datetime`. -/
def daysInMonth (y m : Nat) : Nat :=
  if m == 2 then (if isLeapYear y then 29 else 28)
  else if m == 4 || m == 6 || m == 9 || m == 11 then 30
  else 31

/-- A `datetime.datetime` value (naive, UTC), field by field. -/
structure PyDate where
  year : Nat
  month : Nat
  day : Nat
  hour : Nat
  minute : Nat
  second : Nat
  deriving Repr, DecidableEq

/-- Range validation performed by the `datetime` constructor. -/
def PyDate.valid (d : PyDate) : Bool :=
  decide (1 ≤ d.year ∧ d.year ≤ 9999 ∧ 1 ≤ d.month ∧ d.month ≤ 12 ∧
    1 ≤ d.day ∧ d.day ≤ daysInMonth d.year d.month ∧
    d.hour ≤ 23 ∧ d.minute ≤ 59 ∧ d.second ≤ 59)

/-- Python's `datetime` comparison `a <= b`: lexicographic on
(year, month, day, hour, minute, second). -/
def PyDate.pyLe (a b : PyDate) : Bool :=
  if a.year ≠ b.year then decide (a.year < b.year)
  else if a.month ≠ b.month then decide (a.month < b.month)
  else if a.day ≠ b.day then decide (a.day < b.day)
  else if a.hour ≠ b.hour then decide (a.hour < b.hour)
  else if a.minute ≠ b.minute then decide (a.minute < b.minute)
  else decide (a.second ≤ b.second)

/-- Model of `datetime.strptime(s, DATE_FORMAT)` with
`DATE_FORMAT = "%Y-%m-%dT%H:%M:%SZ"` (line 7): parses the zero-padded
20-character shape and applies `datetime`'s range validation; `none` models a
raised `ValueError`.  (Python's `strptime` additionally tolerates
non-zero-padded fields; the claims quantify only over parse success or
failure, so that laxity is not modelled.) -/
def strptime_date_format (s : String) : Option PyDate :=
  match s.toList with
  | [y1, y2, y3, y4, '-', m1, m2, '-', d1, d2, 'T',
     h1, h2, ':', n1, n2, ':', s1, s2, 'Z'] =>
    match read4 y1 y2 y3 y4, read2 m1 m2, read2 d1 d2,
          read2 h1 h2, read2 n1 n2, read2 s1 s2 with
    | some y, some mo, some da, some h, some mi, some se =>
      let d : PyDate := ⟨y, mo, da, h, mi, se⟩
      if d.valid then some d else none
    | _, _, _, _, _, _ => none
  | _ => none

/-- A gist record as handed to the aggregator: the `dict` of string fields of
one edge's node (`id`, `description`, `name`, `pushedAt`, ...). -/
abbrev Gist := List (String × String)

/-- Dict lookup `gist[filter_on]` on a gist record; `none` models `KeyError`. -/
def gistField : Gist → String → Option String
  | [], _ => none
  | (k, v) :: rest, key => if k = key then some v else gistField rest key

/-- The date the aggregator's loop body computes for a record (line 168):
`datetime.strptime(gist[filter_on], DATE_FORMAT)`; `none` models either the
`KeyError` of the lookup or the `ValueError` of the parse. -/
def gist_date (filter_on : String) (g : Gist) : Option PyDate :=
  match gistField g filter_on with
  | none => none
  | some s => strptime_date_format s

/-- The condition `after_date and pushed_date <= after_date` (line 169): a
supplied cutoff is a `datetime`, which is always truthy. -/
def cutoff_hits : Option PyDate → PyDate → Bool
  | none, _ => false
  | some ad, d => d.pyLe ad

/-- Outcome of the `for gist in cur_gists` loop body of `get_all_gists`
(lines 167-174): an early `return` from the function, fall-through to the
next page, or a raised exception. -/
inductive LoopStep where
  | ret (gists : List Gist)
  | cont (gists : List Gist)
  | err
  deriving Repr, DecidableEq

/-- The `for gist in cur_gists` loop of `get_all_gists` (lines 167-174),
processing one page: parse the record's date field (raising on failure), then
return early if the cutoff is hit, then return early if the accumulated count
has reached `size`, else append the record. -/
def process_gists (filter_on : String) (after_date : Option PyDate) (size : Nat) :
    List Gist → List Gist → LoopStep
  | acc, [] => .cont acc
  | acc, g :: rest =>
    match gist_date filter_on g with
    | none => .err
    | some d =>
      if cutoff_hits after_date d then .ret acc
      else if size ≤ acc.length then .ret acc
      else process_gists filter_on after_date size (acc ++ [g]) rest

/-- One page served by the stub server: the gist records of the page, the
`endCursor` it reports, and its `hasNextPage` flag.  (The per-page
`totalCount` is bound but never used by `get_all_gists`, so it is omitted.) -/
structure Page where
  gists : List Gist
  end_cursor : String
  has_next_page : Bool
  deriving Repr, DecidableEq

/-- The stub backing dataset: the `totalCount` answering the count-only query
of `get_number_of_gists` (lines 111-120), and the pages the paginated query
serves, in cursor-chaining order. -/
structure Server where
  totalCount : Nat
  pages : List Page
  deriving Repr, DecidableEq

/-- Model of `get_number_of_gists` (lines 111-120) against the stub server. -/
def get_number_of_gists (srv : Server) : Nat := srv.totalCount

/-- Outcome of `get_all_gists`: a returned list, a raised exception, or the
stub running out of pages while the last served page still reported
`hasNextPage` (the loop would issue another request the stub cannot answer). -/
inductive AggOut where
  | ok (gists : List Gist)
  | err
  | pagesExhausted (gists : List Gist)
  deriving Repr, DecidableEq

/-- The `while True` loop of `get_all_gists` (lines 165-179).  Each iteration
issues one `get_gists(end_cursor)` call — recorded in the returned trace as
the argument pair `(cursor, page size)`, the size being `get_gists`'s default
since the call site passes only the cursor — consumes the next stub page,
runs the inner loop, and either returns, raises, or continues with the
page's `endCursor` while `has_next_page` holds. -/
def get_all_gists_loop (filter_on : String) (after_date : Option PyDate)
    (size : Nat) :
    Option String → List Gist → List Page → AggOut × List (Option String × Nat)
  | _, acc, [] => (.pagesExhausted acc, [])
  | cursor, acc, p :: rest =>
    let req := (cursor, get_gists_default_size)
    match process_gists filter_on after_date size acc p.gists with
    | .err => (.err, [req])
    | .ret gs => (.ok gs, [req])
    | .cont gs =>
      if p.has_next_page then
        let r := get_all_gists_loop filter_on after_date size
          (some p.end_cursor) gs rest
        (r.1, req :: r.2)
      else (.ok gs, [req])

/-- Truthiness test of `if not size` (line 159): `None` and `0` are falsy. -/
def size_falsy : Option Nat → Bool
  | none => true
  | some n => n == 0

/-- Model of `get_all_gists` (lines 123-179) against the stub server: resolve
a falsy size to the total gist count, then run the pagination loop from a
`None` cursor and an empty accumulator.  Returns the outcome together with
the trace of `get_gists` argument pairs. -/
def get_all_gists (srv : Server) (size : Option Nat) (after_date : Option PyDate)
    (filter_on : String) : AggOut × List (Option String × Nat) :=
  let sz := if size_falsy size then get_number_of_gists srv else size.getD 0
  get_all_gists_loop filter_on after_date sz none [] srv.pages

/-- Concatenation of the records of a page list, in served order. -/
def pages_stream (ps : List Page) : List Gist :=
  (ps.map Page.gists).flatten

/-- Every record of the list has a date field that parses. -/
def all_dates_parse (filter_on : String) (gs : List Gist) : Bool :=
  gs.all fun g => (gist_date filter_on g).isSome

/-- Well-formed stub pagination: at least one page, every page before the
last reports `hasNextPage`, and the last page reports no next page. -/
def wf_pages : List Page → Bool
  | [] => false
  | [p] => !p.has_next_page
  | p :: q :: rest => p.has_next_page && wf_pages (q :: rest)

/-- Number of pages the loop can consume before the server first reports no
next page (counting that page). -/
def pages_until_stop : List Page → Nat
  | [] => 0
  | p :: rest => if p.has_next_page then pages_until_stop rest + 1 else 1

/-- Gist pushed on 2018-03-01, from the spec's concrete test scenario. -/
def gMar : Gist := [("id", "g1"), ("pushedAt", "2018-03-01T00:00:00Z")]

/-- Gist pushed on 2018-02-01, from the spec's concrete test scenario. -/
def gFeb : Gist := [("id", "g2"), ("pushedAt", "2018-02-01T00:00:00Z")]

/-- Gist pushed on 2018-01-01, from the spec's concrete test scenario. -/
def gJan : Gist := [("id", "g3"), ("pushedAt", "2018-01-01T00:00:00Z")]

/-- The spec's single-page stub server with the three dated gists. -/
def demo3 : Server := ⟨3, [⟨[gMar, gFeb, gJan], "c1", false⟩]⟩

/-- A second stub server with the same observable responses as `demo3`. -/
def demo3b : Server := ⟨3, [⟨[gMar, gFeb, gJan], "c1", false⟩]⟩

/-- The spec's cutoff date 2018-02-01T00:00:00Z. -/
def febd : PyDate := ⟨2018, 2, 1, 0, 0, 0⟩

/-- Two-page stub server whose second page reports no next page. -/
def twoPageServer : Server :=
  ⟨3, [⟨[gMar, gFeb], "c1", true⟩, ⟨[gJan], "c2", false⟩]⟩

/-- A gist record with no `pushedAt` field at all. -/
def gNoDate : Gist := [("id", "x")]

/-- Stub server whose first record lacks the date field. -/
def badFieldServer : Server := ⟨1, [⟨[gNoDate], "c", false⟩]⟩

/-- Stub server with a single gist, used to exhibit the size-0 coercion. -/
def oneGistServer : Server := ⟨1, [⟨[gMar], "c", false⟩]⟩

/-- Stub server with two gists, used to exhibit the size-0 coercion. -/
def twoGistServer : Server := ⟨2, [⟨[gMar, gFeb], "c", false⟩]⟩

theorem cutoff_hits_none (d : PyDate) : cutoff_hits none d = false := rfl

theorem pages_stream_cons (p : Page) (rest : List Page) :
    pages_stream (p :: rest) = p.gists ++ pages_stream rest := by
  simp [pages_stream]

/-- If the cutoff never fires on the page's records and the page fits under
the size bound, the inner loop appends the whole page and falls through. -/
theorem process_no_hit_cont (f : String) (ad : Option PyDate) (sz : Nat)
    (gs : List Gist) : ∀ acc : List Gist,
    (∀ g ∈ gs, ∃ d, gist_date f g = some d ∧ cutoff_hits ad d = false) →
    acc.length + gs.length ≤ sz →
    process_gists f ad sz acc gs = .cont (acc ++ gs) := by
  induction gs with
  | nil => intro acc _ _; simp [process_gists]
  | cons g rest ih =>
    intro acc hgood hlen
    obtain ⟨d, hd, hhit⟩ := hgood g (by simp)
    have hlen1 : acc.length + (g :: rest).length ≤ sz := hlen
    simp only [List.length_cons] at hlen1
    rw [process_gists, hd]
    simp only [hhit, if_false, Bool.false_eq_true]
    rw [if_neg (by omega : ¬ sz ≤ acc.length)]
    rw [ih (acc ++ [g]) (fun x hx => hgood x (by simp [hx])) (by simp; omega)]
    simp

/-- If the cutoff never fires but the page does not fit under the size bound,
the inner loop returns early with exactly the records up to the bound. -/
theorem process_no_hit_ret (f : String) (ad : Option PyDate) (sz : Nat)
    (gs : List Gist) : ∀ acc : List Gist,
    (∀ g ∈ gs, ∃ d, gist_date f g = some d ∧ cutoff_hits ad d = false) →
    acc.length ≤ sz → sz < acc.length + gs.length →
    process_gists f ad sz acc gs = .ret (acc ++ gs.take (sz - acc.length)) := by
  induction gs with
  | nil =>
    intro acc _ h1 h2
    simp only [List.length_nil] at h2
    exfalso; omega
  | cons g rest ih =>
    intro acc hgood h1 h2
    obtain ⟨d, hd, hhit⟩ := hgood g (by simp)
    simp only [List.length_cons] at h2
    rw [process_gists, hd]
    simp only [hhit, if_false, Bool.false_eq_true]
    by_cases hsz : sz ≤ acc.length
    · rw [if_pos hsz]
      have hz : sz - acc.length = 0 := by omega
      simp [hz]
    · rw [if_neg hsz]
      rw [ih (acc ++ [g]) (fun x hx => hgood x (by simp [hx])) (by simp; omega)
        (by simp; omega)]
      have hs : sz - acc.length = (sz - (acc.length + 1)) + 1 := by omega
      rw [hs]
      simp [List.append_assoc]

/-- If the records before `g` never fire the cutoff and fit under the size
bound, while `g`'s date is at or before the cutoff, the inner loop returns
early with exactly the records before `g`. -/
theorem process_hit_ret (f : String) (ad : Option PyDate) (sz : Nat)
    (dg : PyDate) (g : Gist) (mid : List Gist)
    (hg : gist_date f g = some dg) (hhit : cutoff_hits ad dg = true)
    (pregs : List Gist) : ∀ acc : List Gist,
    (∀ x ∈ pregs, ∃ d, gist_date f x = some d ∧ cutoff_hits ad d = false) →
    acc.length + pregs.length ≤ sz →
    process_gists f ad sz acc (pregs ++ g :: mid) = .ret (acc ++ pregs) := by
  induction pregs with
  | nil =>
    intro acc _ _
    simp only [List.nil_append]
    rw [process_gists, hg]
    simp [hhit]
  | cons x xs ih =>
    intro acc hgood hlen
    obtain ⟨d, hd, hx⟩ := hgood x (by simp)
    simp only [List.length_cons] at hlen
    simp only [List.cons_append]
    rw [process_gists, hd]
    simp only [hx, if_false, Bool.false_eq_true]
    rw [if_neg (by omega : ¬ sz ≤ acc.length)]
    rw [ih (acc ++ [x]) (fun y hy => hgood y (by simp [hy])) (by simp; omega)]
    simp

/-- Every record in the list the inner loop hands back is either inherited
from the accumulator or passed the date parse and the cutoff check. -/
theorem process_members (f : String) (ad : Option PyDate) (sz : Nat)
    (gs : List Gist) : ∀ acc out : List Gist,
    (process_gists f ad sz acc gs = .ret out ∨
     process_gists f ad sz acc gs = .cont out) →
    ∀ x ∈ out, x ∈ acc ∨ ∃ d, gist_date f x = some d ∧ cutoff_hits ad d = false := by
  induction gs with
  | nil =>
    intro acc out h x hx
    rcases h with h | h
    · simp [process_gists] at h
    · simp only [process_gists, LoopStep.cont.injEq] at h
      subst h; exact .inl hx
  | cons g rest ih =>
    intro acc out h x hx
    cases hd : gist_date f g with
    | none =>
      rw [process_gists, hd] at h
      rcases h with h | h <;> cases h
    | some d =>
      rw [process_gists, hd] at h
      by_cases hhit : cutoff_hits ad d = true
      · simp only [hhit, if_true] at h
        rcases h with h | h
        · cases h; exact .inl hx
        · cases h
      · simp only [hhit, if_false, Bool.false_eq_true] at h
        by_cases hsz : sz ≤ acc.length
        · rw [if_pos hsz] at h
          rcases h with h | h
          · cases h; exact .inl hx
          · cases h
        · rw [if_neg hsz] at h
          rcases ih (acc ++ [g]) out h x hx with hin | hgood
          · rcases List.mem_append.mp hin with hin2 | hin2
            · exact .inl hin2
            · rw [List.mem_singleton] at hin2
              subst hin2
              exact .inr ⟨d, hd, by simpa using hhit⟩
          · exact .inr hgood

/-- Records of a list returned by the pagination loop are either inherited
from the accumulator or passed the date parse and the cutoff check. -/
theorem loop_ok_members (f : String) (ad : Option PyDate) (sz : Nat)
    (ps : List Page) : ∀ (cursor : Option String) (acc gists : List Gist),
    (get_all_gists_loop f ad sz cursor acc ps).1 = .ok gists →
    ∀ x ∈ gists, x ∈ acc ∨ ∃ d, gist_date f x = some d ∧ cutoff_hits ad d = false := by
  induction ps with
  | nil =>
    intro cursor acc gists h
    simp [get_all_gists_loop] at h
  | cons p rest ih =>
    intro cursor acc gists h x hx
    cases hp : process_gists f ad sz acc p.gists with
    | ret gs =>
      rw [get_all_gists_loop, hp] at h
      simp only [AggOut.ok.injEq] at h
      subst h
      exact process_members f ad sz p.gists acc gs (.inl hp) x hx
    | cont gs =>
      by_cases hflag : p.has_next_page = true
      · rw [get_all_gists_loop, hp] at h
        simp only [hflag, if_true] at h
        rcases ih (some p.end_cursor) gs gists h x hx with hin | hgood
        · exact process_members f ad sz p.gists acc gs (.inr hp) x hin
        · exact .inr hgood
      · rw [get_all_gists_loop, hp] at h
        simp only [hflag, if_false, Bool.false_eq_true] at h
        simp only [AggOut.ok.injEq] at h
        subst h
        exact process_members f ad sz p.gists acc gs (.inr hp) x hx
    | err =>
      rw [get_all_gists_loop, hp] at h
      simp at h

/-- When the cutoff never fires on the served stream and the size bound is at
most the number of records left, a well-formed run of the pagination loop
returns the accumulator extended by the first `sz - acc.length` records. -/
theorem loop_no_hit_take (f : String) (ad : Option PyDate) (sz : Nat)
    (ps : List Page) : ∀ (cursor : Option String) (acc : List Gist),
    wf_pages ps = true →
    (∀ x ∈ pages_stream ps, ∃ d, gist_date f x = some d ∧ cutoff_hits ad d = false) →
    acc.length ≤ sz → sz ≤ acc.length + (pages_stream ps).length →
    (get_all_gists_loop f ad sz cursor acc ps).1 =
      .ok (acc ++ (pages_stream ps).take (sz - acc.length)) := by
  induction ps with
  | nil => intro _ _ hwf _ _ _; simp [wf_pages] at hwf
  | cons p rest ih =>
    intro cursor acc hwf hgood h1 h2
    rw [pages_stream_cons] at hgood h2
    by_cases hcase : acc.length + p.gists.length ≤ sz
    · have hcont := process_no_hit_cont f ad sz p.gists acc
        (fun x hx => hgood x (List.mem_append_left _ hx)) hcase
      cases rest with
      | nil =>
        have hflag : p.has_next_page = false := by simpa [wf_pages] using hwf
        rw [get_all_gists_loop, hcont]
        simp only [hflag, if_false, Bool.false_eq_true]
        have hlen : sz - acc.length = p.gists.length := by
          simp only [pages_stream, List.map_nil, List.flatten_nil,
            List.append_nil, List.length_append] at h2 ⊢
          omega
        simp [pages_stream, hlen, List.take_length]
      | cons q rest2 =>
        have hflag : p.has_next_page = true := by
          simp only [wf_pages, Bool.and_eq_true] at hwf
          exact hwf.1
        have hwf2 : wf_pages (q :: rest2) = true := by
          simp only [wf_pages, Bool.and_eq_true] at hwf
          exact hwf.2
        rw [get_all_gists_loop, hcont]
        simp only [hflag, if_true]
        rw [ih (some p.end_cursor) (acc ++ p.gists) hwf2
          (fun x hx => hgood x (List.mem_append_right _ hx))
          (by simpa using hcase)
          (by simp only [List.length_append] at h2 ⊢; omega)]
        conv_rhs => rw [pages_stream_cons, List.take_append_eq_append_take,
          List.take_of_length_le (by omega : p.gists.length ≤ sz - acc.length)]
        simp only [List.length_append, List.append_assoc, Nat.sub_sub]
    · push_neg at hcase
      have hret := process_no_hit_ret f ad sz p.gists acc
        (fun x hx => hgood x (List.mem_append_left _ hx)) h1 hcase
      rw [get_all_gists_loop, hret]
      rw [pages_stream_cons, List.take_append_of_le_length
        (by omega : sz - acc.length ≤ p.gists.length)]

/-- When the stream decomposes as clean records followed by a record whose
date is at or before the cutoff, and the clean records fit under the size
bound, a well-formed run of the pagination loop returns the accumulator
extended by exactly the clean records. -/
theorem loop_hit_ret (f : String) (ad : Option PyDate) (sz : Nat)
    (dg : PyDate) (g : Gist)
    (hg : gist_date f g = some dg) (hhit : cutoff_hits ad dg = true)
    (ps : List Page) : ∀ (cursor : Option String) (acc rest_pre post : List Gist),
    wf_pages ps = true →
    pages_stream ps = rest_pre ++ g :: post →
    (∀ x ∈ rest_pre, ∃ d, gist_date f x = some d ∧ cutoff_hits ad d = false) →
    acc.length + rest_pre.length ≤ sz →
    (get_all_gists_loop f ad sz cursor acc ps).1 = .ok (acc ++ rest_pre) := by
  induction ps with
  | nil =>
    intro cursor acc rest_pre post _ hdec _ _
    simp only [pages_stream, List.map_nil, List.flatten_nil] at hdec
    exact absurd hdec.symm (List.append_ne_nil_of_right_ne_nil _ (by simp))
  | cons p rest ih =>
    intro cursor acc rest_pre post hwf hdec hgood hlen
    rw [pages_stream_cons] at hdec
    have hmain : (∃ mid, p.gists = rest_pre ++ g :: mid) ∨
        (∃ a2, rest_pre = p.gists ++ a2 ∧ pages_stream rest = a2 ++ g :: post) := by
      rcases List.append_eq_append_iff.mp hdec with ⟨a2, hpre, hs2⟩ | ⟨c2, hpg, hcp⟩
      · exact .inr ⟨a2, hpre, hs2⟩
      · cases c2 with
        | nil =>
          refine .inr ⟨[], by simpa using hpg.symm, ?_⟩
          simpa using hcp.symm
        | cons c0 ctail =>
          left
          simp only [List.cons_append, List.cons.injEq] at hcp
          exact ⟨ctail, by rw [hpg, hcp.1]⟩
    rcases hmain with ⟨mid, hmid⟩ | ⟨a2, hpre, hs2⟩
    · have hret := process_hit_ret f ad sz dg g mid hg hhit rest_pre acc hgood hlen
      rw [get_all_gists_loop, hmid, hret]
    · have hcont := process_no_hit_cont f ad sz p.gists acc
        (fun x hx => hgood x (by rw [hpre]; exact List.mem_append_left _ hx))
        (by rw [hpre] at hlen; simp only [List.length_append] at hlen; omega)
      have hrest_ne : rest ≠ [] := by
        intro hnil
        rw [hnil] at hs2
        simp only [pages_stream, List.map_nil, List.flatten_nil] at hs2
        exact absurd hs2.symm (List.append_ne_nil_of_right_ne_nil _ (by simp))
      cases rest with
      | nil => exact absurd rfl hrest_ne
      | cons q rest2 =>
        have hflag : p.has_next_page = true := by
          simp only [wf_pages, Bool.and_eq_true] at hwf
          exact hwf.1
        have hwf2 : wf_pages (q :: rest2) = true := by
          simp only [wf_pages, Bool.and_eq_true] at hwf
          exact hwf.2
        rw [get_all_gists_loop, hcont]
        simp only [hflag, if_true]
        rw [ih (some p.end_cursor) (acc ++ p.gists) a2 post hwf2 hs2
          (fun x hx => hgood x (by rw [hpre]; exact List.mem_append_right _ hx))
          (by rw [hpre] at hlen; simp only [List.length_append] at hlen ⊢; omega)]
        rw [hpre, List.append_assoc]

theorem one_le_pages_until_stop (p : Page) (rest : List Page) :
    1 ≤ pages_until_stop (p :: rest) := by
  rw [pages_until_stop]
  split <;> omega

/-- The pagination loop issues at most one page request per page up to and
including the first page reporting no next page. -/
theorem loop_trace_le (f : String) (ad : Option PyDate) (sz : Nat)
    (ps : List Page) : ∀ (cursor : Option String) (acc : List Gist),
    (get_all_gists_loop f ad sz cursor acc ps).2.length ≤ pages_until_stop ps := by
  induction ps with
  | nil => intro cursor acc; simp [get_all_gists_loop, pages_until_stop]
  | cons p rest ih =>
    intro cursor acc
    cases hp : process_gists f ad sz acc p.gists with
    | ret gs =>
      rw [get_all_gists_loop, hp]
      simpa using one_le_pages_until_stop p rest
    | cont gs =>
      by_cases hflag : p.has_next_page = true
      · rw [get_all_gists_loop, hp]
        simp only [hflag, if_true, pages_until_stop, List.length_cons]
        exact Nat.succ_le_succ (ih (some p.end_cursor) gs)
      · rw [get_all_gists_loop, hp]
        simp only [hflag, if_false, Bool.false_eq_true]
        simpa using one_le_pages_until_stop p rest
    | err =>
      rw [get_all_gists_loop, hp]
      simpa using one_le_pages_until_stop p rest

/-- Every page request the pagination loop issues carries the page fetcher's
default page size. -/
theorem loop_trace_sizes (f : String) (ad : Option PyDate) (sz : Nat)
    (ps : List Page) : ∀ (cursor : Option String) (acc : List Gist),
    ∀ r ∈ (get_all_gists_loop f ad sz cursor acc ps).2,
      r.2 = get_gists_default_size := by
  induction ps with
  | nil => intro cursor acc r hr; simp [get_all_gists_loop] at hr
  | cons p rest ih =>
    intro cursor acc r hr
    cases hp : process_gists f ad sz acc p.gists with
    | ret gs =>
      rw [get_all_gists_loop, hp] at hr
      rw [List.mem_singleton] at hr
      rw [hr]
    | cont gs =>
      by_cases hflag : p.has_next_page = true
      · rw [get_all_gists_loop, hp] at hr
        simp only [hflag, if_true, List.mem_cons] at hr
        rcases hr with hr | hr
        · rw [hr]
        · exact ih (some p.end_cursor) gs r hr
      · rw [get_all_gists_loop, hp] at hr
        simp only [hflag, if_false, Bool.false_eq_true] at hr
        rw [List.mem_singleton] at hr
        rw [hr]
    | err =>
      rw [get_all_gists_loop, hp] at hr
      rw [List.mem_singleton] at hr
      rw [hr]

/-- Claim C1, counterexample: on a server holding one gist, calling the
aggregator with target size 0 and no cutoff returns that gist, not an empty
result list — `if not size` treats 0 as unset and replaces it by the total
gist count. -/
theorem C1_counterexample :
    (get_all_gists oneGistServer (some 0) none "pushedAt").1 = AggOut.ok [gMar] ∧
    AggOut.ok [gMar] ≠ AggOut.ok ([] : List Gist) := by
  exact ⟨by decide, by decide⟩

/-- Claim C1, amended: a target size of 0 is falsy under `if not size`, so it
is replaced by the total gist count and the call behaves exactly like a call
with no size supplied (returning all available gists; an empty list only
when the account has none).  The first page is still fetched either way. -/
theorem C1_size_zero_defaults (srv : Server) (ad : Option PyDate) (f : String) :
    get_all_gists srv (some 0) ad f = get_all_gists srv none ad f := rfl

/-- Claim C2, counterexample: on a server holding two gists, target size 0
(which is at most the total) with no cutoff returns both gists — two
records, not exactly zero — because size 0 is coerced to the total count. -/
theorem C2_counterexample :
    (0 : Nat) ≤ (pages_stream twoGistServer.pages).length ∧
    (get_all_gists twoGistServer (some 0) none "pushedAt").1 =
      AggOut.ok [gMar, gFeb] ∧
    ([gMar, gFeb] : List Gist).length = 2 := by
  exact ⟨by decide, by decide, by decide⟩

/-- Claim C2, amended: for every target size `s` with `1 ≤ s` and `s` at most
the number of gists the well-formed server serves, and no cutoff, the
aggregator returns exactly the first `s` records of the served stream — so
exactly `s` records, in the server's (descending push-date) order, the size
check firing before the record that would exceed the target is appended. -/
theorem C2_size_cap (srv : Server) (s : Nat) (f : String)
    (hwf : wf_pages srv.pages = true)
    (hparse : all_dates_parse f (pages_stream srv.pages) = true)
    (hpos : 1 ≤ s) (hle : s ≤ (pages_stream srv.pages).length) :
    (get_all_gists srv (some s) none f).1 =
      AggOut.ok ((pages_stream srv.pages).take s) ∧
    ((pages_stream srv.pages).take s).length = s := by
  obtain ⟨n, rfl⟩ : ∃ n, s = n + 1 := ⟨s - 1, by omega⟩
  have hgood : ∀ x ∈ pages_stream srv.pages,
      ∃ d, gist_date f x = some d ∧ cutoff_hits none d = false := by
    intro x hx
    unfold all_dates_parse at hparse
    have hps := (List.all_eq_true.mp hparse) x hx
    obtain ⟨d, hd⟩ := Option.isSome_iff_exists.mp hps
    exact ⟨d, hd, rfl⟩
  have hun : get_all_gists srv (some (n + 1)) none f =
      get_all_gists_loop f none (n + 1) none [] srv.pages := rfl
  constructor
  · rw [hun, loop_no_hit_take f none (n + 1) srv.pages none [] hwf hgood
      (by simp) (by simpa using hle)]
    simp
  · rw [List.length_take]
    omega

/-- Claim C2, witness at a concrete server and size 2. -/
theorem C2_size_cap_witness :
    (get_all_gists demo3 (some 2) none "pushedAt").1 =
      AggOut.ok ((pages_stream demo3.pages).take 2) ∧
    ((pages_stream demo3.pages).take 2).length = 2 :=
  C2_size_cap demo3 2 "pushedAt" (by decide) (by decide) (by decide) (by decide)

/-- Claim C3: with a cutoff `d` supplied, (1) every record in a returned list
has a filter field that parses to a date strictly after `d`, and (2) when the
served stream splits into records strictly after `d` followed by a first
record at or before `d`, the aggregator (with the default size) returns
exactly the records before that record, discarding it and everything after
it in this and all later pages. -/
theorem C3_cutoff_filter (srv : Server) (f : String) (d : PyDate) :
    (∀ (sz : Option Nat) (gists : List Gist),
      (get_all_gists srv sz (some d) f).1 = AggOut.ok gists →
      ∀ g ∈ gists, ∃ dg, gist_date f g = some dg ∧ dg.pyLe d = false) ∧
    (∀ (pre : List Gist) (g : Gist) (post : List Gist) (dg : PyDate),
      wf_pages srv.pages = true →
      pages_stream srv.pages = pre ++ g :: post →
      (∀ x ∈ pre, ∃ dx, gist_date f x = some dx ∧ dx.pyLe d = false) →
      gist_date f g = some dg → dg.pyLe d = true →
      pre.length ≤ srv.totalCount →
      (get_all_gists srv none (some d) f).1 = AggOut.ok pre) := by
  constructor
  · intro sz gists h x hx
    have h2 : (get_all_gists_loop f (some d)
        (if size_falsy sz then get_number_of_gists srv else sz.getD 0)
        none [] srv.pages).1 = AggOut.ok gists := h
    rcases loop_ok_members f (some d) _ srv.pages none [] gists h2 x hx with
      hin | ⟨dg, hdg, hlt⟩
    · exact absurd hin (List.not_mem_nil x)
    · exact ⟨dg, hdg, hlt⟩
  · intro pre g post dg hwf hdec hpre hg hhit hlen
    have h2 : (get_all_gists srv none (some d) f).1 =
        (get_all_gists_loop f (some d) srv.totalCount none [] srv.pages).1 := rfl
    rw [h2, loop_hit_ret f (some d) srv.totalCount dg g hg hhit srv.pages none
      [] pre post hwf hdec hpre (by simpa using hlen)]
    simp

/-- Claim C3, witness: the spec's concrete scenario — three gists pushed in
March, February and January 2018 on one page, cutoff 2018-02-01T00:00:00Z —
returns only the March gist; the February record (equal to the cutoff) is
excluded and halts accumulation. -/
theorem C3_cutoff_filter_witness :
    (get_all_gists demo3 none (some febd) "pushedAt").1 = AggOut.ok [gMar] :=
  (C3_cutoff_filter demo3 "pushedAt" febd).2 [gMar] gFeb [gJan]
    ⟨2018, 2, 1, 0, 0, 0⟩ (by decide) (by decide)
    (by intro x hx
        rw [List.mem_singleton] at hx
        subst hx
        exact ⟨⟨2018, 3, 1, 0, 0, 0⟩, by decide, by decide⟩)
    (by decide) (by decide) (by decide)

/-- Claim C4, counterexample: a decoded response that does contain a `data`
field, with value `null`, still makes `query_graphql` raise the assertion —
the assert tests truthiness of `res.get('data', False)`, not presence. -/
theorem C4_counterexample :
    dictGet [("data", Json.null)] "data" = some Json.null ∧
    query_graphql [("data", Json.null)] = PyResult.assertionError :=
  ⟨rfl, rfl⟩

/-- Claim C4, amended: `query_graphql` raises the assertion exactly when the
decoded response lacks a `data` field or its `data` value is falsy (null,
false, 0, empty string, empty list or empty object); whenever `data` is
present and truthy it returns the full decoded response, `data` wrapper
included, unmodified. -/
theorem C4_data_truthy (res : List (String × Json)) :
    ((dictGet res "data" = none ∨
      ∃ v, dictGet res "data" = some v ∧ v.truthy = false) →
      query_graphql res = PyResult.assertionError) ∧
    (∀ v, dictGet res "data" = some v → v.truthy = true →
      query_graphql res = PyResult.ok res) := by
  constructor
  · rintro (h | ⟨v, hv, hf⟩)
    · simp [query_graphql, h, Json.truthy]
    · simp [query_graphql, hv, hf]
  · intro v hv ht
    simp [query_graphql, hv, ht]

/-- Claim C4, witness: a response whose `data` field is a non-empty object is
returned unmodified. -/
theorem C4_data_truthy_witness :
    query_graphql [("data", Json.obj [("viewer", Json.null)])] =
      PyResult.ok [("data", Json.obj [("viewer", Json.null)])] :=
  (C4_data_truthy [("data", Json.obj [("viewer", Json.null)])]).2
    (Json.obj [("viewer", Json.null)]) rfl rfl

/-- Claim C5: on every response of the documented contract shape, `get_gists`
returns the 4-tuple of the edges' nodes in edge order, `totalCount`,
`pageInfo.endCursor` and `pageInfo.hasNextPage`. -/
theorem C5_page_unwrap (total : Json) (edges : List (Json × Json))
    (end_cursor has_next_page : Json) :
    get_gists (mkGistsResponse total edges end_cursor has_next_page) =
      PyResult.ok (some (edges.map Prod.fst, total, end_cursor, has_next_page)) := by
  have hnodes : ∀ es : List (Json × Json),
      extract_nodes (es.map fun e => Json.obj [("node", e.1), ("cursor", e.2)]) =
        some (es.map Prod.fst) := by
    intro es
    induction es with
    | nil => rfl
    | cons e tail ih => simp [extract_nodes, Json.getKey, dictGet, ih]
  simp [get_gists, query_graphql, mkGistsResponse, get_gists_unwrap,
    Json.getKey, dictGet, Json.truthy, hnodes]

/-- Claim C6: the aggregator issues one page request per loop iteration and
never more requests than there are pages up to and including the first page
reporting no next page; on the two-page stub whose second page reports
`hasNextPage = false` it issues exactly 2 page requests. -/
theorem C6_pagination_requests :
    (∀ (srv : Server) (sz : Option Nat) (ad : Option PyDate) (f : String),
      (get_all_gists srv sz ad f).2.length ≤ pages_until_stop srv.pages) ∧
    (get_all_gists twoPageServer none none "pushedAt").2.length = 2 := by
  constructor
  · intro srv sz ad f
    exact loop_trace_le f ad _ srv.pages none []
  · decide

/-- Claim C7: two aggregator calls with identical size and cutoff arguments
against servers giving the same responses (same total count, same page
sequence) return identical results — including the full ordered gist list
and the request trace. -/
theorem C7_deterministic (srv1 srv2 : Server) (sz : Option Nat)
    (ad : Option PyDate) (f : String)
    (hp : srv1.pages = srv2.pages) (ht : srv1.totalCount = srv2.totalCount) :
    get_all_gists srv1 sz ad f = get_all_gists srv2 sz ad f := by
  simp only [get_all_gists, get_number_of_gists, hp, ht]

/-- Claim C7, witness at two structurally equal stub servers. -/
theorem C7_deterministic_witness :
    get_all_gists demo3 none none "pushedAt" =
      get_all_gists demo3b none none "pushedAt" :=
  C7_deterministic demo3 demo3b none none "pushedAt" rfl rfl

/-- Claim C8: every page request the aggregator issues carries the page
fetcher's default page size, which is 100 — the aggregator never forwards
its target size to the page fetcher. -/
theorem C8_default_page_size (srv : Server) (sz : Option Nat)
    (ad : Option PyDate) (f : String) :
    (∀ r ∈ (get_all_gists srv sz ad f).2, r.2 = get_gists_default_size) ∧
    get_gists_default_size = 100 := by
  constructor
  · intro r hr
    exact loop_trace_sizes f ad _ srv.pages none [] r hr
  · rfl

/-- Claim C8, witness: even with a target size of 1, the first page request
carries page size 100. -/
theorem C8_default_page_size_witness :
    ((none : Option String), (100 : Nat)) ∈
      (get_all_gists demo3 (some 1) none "pushedAt").2 ∧
    (((none : Option String), (100 : Nat))).2 = get_gists_default_size :=
  ⟨by decide, (C8_default_page_size demo3 (some 1) none "pushedAt").1
    ((none : Option String), (100 : Nat)) (by decide)⟩

/-- Claim C9: the date field of the first examined record is parsed before
any cutoff or size check, so a record whose filter field is absent or
malformed makes the whole call raise, whatever the cutoff (and size)
arguments are. -/
theorem C9_date_parse_unconditional (srv : Server) (sz : Option Nat)
    (ad : Option PyDate) (f : String) (g : Gist) (rest : List Gist)
    (c : String) (b : Bool) (more : List Page)
    (hpages : srv.pages = ⟨g :: rest, c, b⟩ :: more)
    (hbad : gist_date f g = none) :
    (get_all_gists srv sz ad f).1 = AggOut.err := by
  have h2 : (get_all_gists srv sz ad f).1 =
      (get_all_gists_loop f ad
        (if size_falsy sz then get_number_of_gists srv else sz.getD 0)
        none [] srv.pages).1 := rfl
  rw [h2, hpages]
  simp [get_all_gists_loop, process_gists, hbad]

/-- Claim C9, witness: a record with no `pushedAt` field raises even with no
cutoff supplied. -/
theorem C9_date_parse_unconditional_witness :
    (get_all_gists badFieldServer none none "pushedAt").1 = AggOut.err :=
  C9_date_parse_unconditional badFieldServer none none "pushedAt" gNoDate []
    "c" false [] rfl rfl

/-- Claim C10: a `None` cursor and an empty-string cursor both select the
first-page template (no `after` clause); a non-empty cursor string selects
the subsequent-page template. -/
theorem C10_cursor_template_choice (size : Nat) :
    get_gists_payload none size = first_payload size ∧
    get_gists_payload (some "") size = first_payload size ∧
    ∀ c : String, c ≠ "" →
      get_gists_payload (some c) size = payload_template size c := by
  refine ⟨rfl, ?_, ?_⟩
  · simp [get_gists_payload]
  · intro c hc
    simp [get_gists_payload, hc]

/-- Claim C10, witness at a concrete non-empty cursor. -/
theorem C10_cursor_template_choice_witness :
    get_gists_payload (some "Y3Vyc29y") 100 = payload_template 100 "Y3Vyc29y" :=
  (C10_cursor_template_choice 100).2.2 "Y3Vyc29y" (by decide)
